import Mathlib

/-!
Verification of the maxout operator registration file
(paddle/fluid/operators/maxout_op.cc).

The file contributes three pieces of logic:
* MaxOutOp::InferShape - forward shape inference;
* MaxOutOpGrad::InferShape - gradient shape inference;
* the documented value formula of the operator
  (the compute kernel itself, math::MaxOutFunctor, is outside the excerpt).

Shapes are modelled as lists of Int (C++ int64_t dimension sizes; the
concrete dimensions in all claims are far below 2^63, so no wraparound
is reachable and plain Int is faithful).  A PADDLE_ENFORCE failure is an
err result carrying the exact message string from the source; an
out-of-bounds std::vector write (which is undefined behaviour in C++) is
modelled by the distinguished result ub.  Tensor element values are
modelled as rationals: the only value operation is max, which is exact,
so rational arithmetic agrees with float arithmetic on all inputs the
claims use.
-/

set_option autoImplicit false
set_option linter.unusedVariables false

namespace Maxout

/-- A rank-4 tensor shape, mirroring the four reads
in_x_dims[0] .. in_x_dims[3] performed by MaxOutOp::InferShape. -/
structure Shape4 where
  d0 : Int
  d1 : Int
  d2 : Int
  d3 : Int
  deriving DecidableEq

/-- The shape vector built by MaxOutOp::InferShape from the input dims. -/
def Shape4.toList (s : Shape4) : List Int :=
  [s.d0, s.d1, s.d2, s.d3]

/-- Outcome of an InferShape call: the output dims written to the context,
a fatal PADDLE_ENFORCE failure with its message, or undefined behaviour
(an out-of-range std::vector element access). -/
inductive InferResult where
  | ok (dims : List Int)
  | err (msg : String)
  | ub
  deriving DecidableEq

/-- Message of the PADDLE_ENFORCE_EQ on HasInput in MaxOutOp::InferShape. -/
def xNullMsg : String := "Input(X) of MaxoutOpshould not be null."

/-- Message of the PADDLE_ENFORCE_EQ on HasOutput in MaxOutOp::InferShape. -/
def outNullMsg : String := "Output(Out) of MaxoutOp should not be null."

/-- Message of the PADDLE_ENFORCE_GT on groups in MaxOutOp::InferShape. -/
def groupsMsg : String := "Attr(groups) of Op(maxout) should be larger than 1."

/-- Message of the PADDLE_ENFORCE on HasInput in MaxOutOpGrad::InferShape. -/
def gradXNullMsg : String := "Input(X) of MaxOutOpGrad must not be null."

/-- Message of the PADDLE_ENFORCE on HasOutput in MaxOutOpGrad::InferShape. -/
def gradOutNullMsg : String := "Output(Grad@X) of MaxOutOpGrad should not be null."

/-- MaxOutOp::InferShape.  Checks the X input slot, the Out output slot and
groups > 1, then copies the four input dims and overwrites entry axis with
in_x_dims[axis] / groups (C++ int64_t division truncates toward zero, which
is Int.tdiv).  The source performs no check on axis: when axis is outside
0..3 the write output_shape[axis] is an out-of-range vector access, hence ub. -/
def MaxOutOp.InferShape (hasX hasOut : Bool) (inX : Shape4)
    (groups axis : Int) : InferResult :=
  if hasX = false then .err xNullMsg
  else if hasOut = false then .err outNullMsg
  else if groups ≤ 1 then .err groupsMsg
  else if 0 ≤ axis ∧ axis < 4 then
    .ok ((inX.toList).set axis.toNat
      (Int.tdiv (inX.toList.getD axis.toNat 0) groups))
  else .ub

/-- MaxOutOpGrad::InferShape.  Checks the X input slot and the Grad@X output
slot, then copies the shape of X to Grad@X.  The attribute values groups and
axis are available in the context but the source never reads them. -/
def MaxOutOpGrad.InferShape (hasX hasGradX : Bool) (xDims : List Int)
    (groups axis : Int) : InferResult :=
  if hasX = false then .err gradXNullMsg
  else if hasGradX = false then .err gradOutNullMsg
  else .ok xDims

/-- Left fold of the maximum over f 0 .. f (g-1), seeded with a. -/
def foldMax (f : Nat → ℚ) (g : Nat) (a : ℚ) : ℚ :=
  (List.range g).foldl (fun b k => max b (f k)) a

/-- Modelled from the spec: the compute kernel (math::MaxOutFunctor) is not
part of the excerpt; this is the maximum over the groups candidate input
elements of one output element, following the operator formula stated in the
documentation string of MaxOutOpMaker::Make and in the spec: the candidate
for group k is the flattened input element at index g*s*i + s*k + j. -/
def maxOverGroups (x : List ℚ) (g s i j : Nat) : ℚ :=
  foldMax (fun k => x.getD (g * s * i + s * k + j) 0) g
    (x.getD (g * s * i + j) 0)

/-- Modelled from the spec: the compute kernel (math::MaxOutFunctor) is not
part of the excerpt; this is the forward value computation on the flattened
input, following the documented formula: the output has num_channels/groups
times s elements, s = input.size / num_channels, and the element at
flattened index s*i + j is the maximum over the groups candidates. -/
def maxoutForward (x : List ℚ) (numChannels groups : Nat) : List ℚ :=
  (List.range ((numChannels / groups) * (x.length / numChannels))).map
    (fun t => maxOverGroups x groups (x.length / numChannels)
      (t / (x.length / numChannels)) (t % (x.length / numChannels)))

theorem foldMax_succ (f : Nat → ℚ) (g : Nat) (a : ℚ) :
    foldMax f (g + 1) a = max (foldMax f g a) (f g) := by
  simp [foldMax, List.range_succ]

theorem init_le_foldMax (f : Nat → ℚ) (g : Nat) (a : ℚ) : a ≤ foldMax f g a := by
  induction g with
  | zero => simp [foldMax]
  | succ n ih => rw [foldMax_succ]; exact le_trans ih (le_max_left _ _)

theorem le_foldMax (f : Nat → ℚ) (g : Nat) (a : ℚ) (k : Nat) (hk : k < g) :
    f k ≤ foldMax f g a := by
  induction g with
  | zero => exact absurd hk (Nat.not_lt_zero k)
  | succ n ih =>
    rw [foldMax_succ]
    rcases Nat.lt_succ_iff_lt_or_eq.mp hk with h | h
    · exact le_trans (ih h) (le_max_left _ _)
    · subst h; exact le_max_right _ _

theorem foldMax_le (f : Nat → ℚ) (g : Nat) (a c : ℚ)
    (ha : a ≤ c) (hf : ∀ k, k < g → f k ≤ c) : foldMax f g a ≤ c := by
  induction g with
  | zero => simpa [foldMax] using ha
  | succ n ih =>
    rw [foldMax_succ]
    exact max_le (ih fun k hk => hf k (Nat.lt_succ_of_lt hk))
      (hf n (Nat.lt_succ_self n))

theorem foldMax_mono (f f' : Nat → ℚ) (g : Nat) (a a' : ℚ)
    (ha : a ≤ a') (hf : ∀ k, k < g → f k ≤ f' k) :
    foldMax f g a ≤ foldMax f' g a' := by
  induction g with
  | zero => simpa [foldMax] using ha
  | succ n ih =>
    rw [foldMax_succ, foldMax_succ]
    exact max_le_max (ih fun k hk => hf k (Nat.lt_succ_of_lt hk))
      (hf n (Nat.lt_succ_self n))

theorem foldMax_attained (f : Nat → ℚ) (g : Nat) (a : ℚ) :
    foldMax f g a = a ∨ ∃ k, k < g ∧ foldMax f g a = f k := by
  induction g with
  | zero => left; rfl
  | succ n ih =>
    rw [foldMax_succ]
    rcases le_total (foldMax f n a) (f n) with h | h
    · right; exact ⟨n, Nat.lt_succ_self n, max_eq_right h⟩
    · rw [max_eq_left h]
      rcases ih with h' | ⟨k, hk, h'⟩
      · left; exact h'
      · right; exact ⟨k, Nat.lt_succ_of_lt hk, h'⟩

theorem maxOverGroups_seed (x : List ℚ) (g s i j : Nat) :
    maxOverGroups x g s i j =
      foldMax (fun k => x.getD (g * s * i + s * k + j) 0) g
        (x.getD (g * s * i + s * 0 + j) 0) := by
  simp [maxOverGroups]

theorem le_maxOverGroups (x : List ℚ) (g s i j k : Nat) (hk : k < g) :
    x.getD (g * s * i + s * k + j) 0 ≤ maxOverGroups x g s i j :=
  le_foldMax _ g _ k hk

theorem maxOverGroups_attained (x : List ℚ) (g s i j : Nat) (hg : 0 < g) :
    ∃ k, k < g ∧ maxOverGroups x g s i j = x.getD (g * s * i + s * k + j) 0 := by
  rw [maxOverGroups_seed]
  rcases foldMax_attained (fun k => x.getD (g * s * i + s * k + j) 0) g
    (x.getD (g * s * i + s * 0 + j) 0) with h | ⟨k, hk, h⟩
  · exact ⟨0, hg, h⟩
  · exact ⟨k, hk, h⟩

theorem maxOverGroups_le (x : List ℚ) (g s i j : Nat) (c : ℚ)
    (hf : ∀ k, k < g → x.getD (g * s * i + s * k + j) 0 ≤ c) (hg : 0 < g) :
    maxOverGroups x g s i j ≤ c := by
  rw [maxOverGroups_seed]
  exact foldMax_le _ g _ c (hf 0 hg) hf

theorem maxOverGroups_mono (x x' : List ℚ) (g s i j : Nat)
    (hf : ∀ k, k < g →
      x.getD (g * s * i + s * k + j) 0 ≤ x'.getD (g * s * i + s * k + j) 0)
    (hg : 0 < g) :
    maxOverGroups x g s i j ≤ maxOverGroups x' g s i j := by
  rw [maxOverGroups_seed, maxOverGroups_seed]
  exact foldMax_mono _ _ g _ _ (hf 0 hg) hf

theorem maxoutForward_length (x : List ℚ) (nc g : Nat) :
    (maxoutForward x nc g).length = (nc / g) * (x.length / nc) := by
  simp [maxoutForward]

theorem maxoutForward_getD (x : List ℚ) (nc g s i j : Nat)
    (hs : s = x.length / nc) (hs0 : 0 < s) (hi : i < nc / g) (hj : j < s) :
    (maxoutForward x nc g).getD (s * i + j) 0 = maxOverGroups x g s i j := by
  have ht : s * i + j < (nc / g) * s := by
    have h1 : s * i + j < s * (i + 1) := by
      rw [Nat.mul_succ]; exact Nat.add_lt_add_left hj _
    have h2 : s * (i + 1) ≤ s * (nc / g) := Nat.mul_le_mul_left s hi
    calc s * i + j < s * (nc / g) := lt_of_lt_of_le h1 h2
      _ = (nc / g) * s := Nat.mul_comm _ _
  have hlen : s * i + j < (maxoutForward x nc g).length := by
    rw [maxoutForward_length, ← hs]; exact ht
  rw [List.getD_eq_getElem _ _ hlen]
  unfold maxoutForward
  simp only [← hs] at ht ⊢
  rw [List.getElem_map, List.getElem_range]
  have hdiv : (s * i + j) / s = i := by
    rw [Nat.add_comm, Nat.mul_comm, Nat.add_mul_div_right j i hs0,
      Nat.div_eq_of_lt hj]
    omega
  have hmod : (s * i + j) % s = j := by
    rw [Nat.add_comm, Nat.mul_comm, Nat.add_mul_mod_self_right,
      Nat.mod_eq_of_lt hj]
  rw [hdiv, hmod]

/-- Claim C1: for every rank-4 input shape and attributes with groups > 1 and a
valid axis, forward shape inference returns an output shape identical to the
input shape in every dimension except axis, where it is the input extent at
axis divided by groups with truncating integer division. -/
theorem C1_forward_shape (inX : Shape4) (groups axis : Int)
    (hg : 1 < groups) (ha0 : 0 ≤ axis) (ha4 : axis < 4) :
    ∃ dims, MaxOutOp.InferShape true true inX groups axis = .ok dims ∧
      dims.length = 4 ∧
      (∀ m, m < 4 → m ≠ axis.toNat → dims.getD m 0 = inX.toList.getD m 0) ∧
      dims.getD axis.toNat 0 =
        Int.tdiv (inX.toList.getD axis.toNat 0) groups := by
  have ha : axis.toNat < 4 := by omega
  have hlen : axis.toNat < inX.toList.length := by
    simpa [Shape4.toList] using ha
  refine ⟨(inX.toList).set axis.toNat
    (Int.tdiv (inX.toList.getD axis.toNat 0) groups), ?_, ?_, ?_, ?_⟩
  · simp [MaxOutOp.InferShape, ha0, ha4, not_le.mpr hg]
  · simp [Shape4.toList]
  · intro m hm hne
    simp [List.getD_eq_getElem?_getD, List.getElem?_set_ne (Ne.symm hne)]
  · simp [List.getD_eq_getElem?_getD, List.getElem?_set_self, hlen]

theorem C1_forward_shape_witness :
    ∃ dims, MaxOutOp.InferShape true true ⟨2, 6, 3, 4⟩ 3 1 = .ok dims ∧
      dims.length = 4 ∧
      (∀ m, m < 4 → m ≠ (1 : Int).toNat →
        dims.getD m 0 = (Shape4.toList ⟨2, 6, 3, 4⟩).getD m 0) ∧
      dims.getD (1 : Int).toNat 0 =
        Int.tdiv ((Shape4.toList ⟨2, 6, 3, 4⟩).getD (1 : Int).toNat 0) 3 :=
  C1_forward_shape ⟨2, 6, 3, 4⟩ 3 1 (by decide) (by decide) (by decide)

/-- Claim C2 counterexample: on input shape (1, 5, 1, 1) with groups = 2 and
axis = 1 the channel extent 5 is not divisible by 2, yet forward shape
inference succeeds with the truncated output shape (1, 2, 1, 1) instead of
failing: the source contains no divisibility check. -/
theorem C2_no_divisibility_check_cex :
    MaxOutOp.InferShape true true ⟨1, 5, 1, 1⟩ 2 1 = .ok [1, 2, 1, 1] := by
  decide

/-- Claim C2 amended: when the channel extent is not divisible by groups, forward
shape inference does not fail; it succeeds, writing the truncated quotient
into the output shape at the axis entry. -/
theorem C2_truncating_division (inX : Shape4) (groups axis : Int)
    (hg : 1 < groups) (ha0 : 0 ≤ axis) (ha4 : axis < 4)
    (hnd : Int.tmod (inX.toList.getD axis.toNat 0) groups ≠ 0) :
    MaxOutOp.InferShape true true inX groups axis =
      .ok ((inX.toList).set axis.toNat
        (Int.tdiv (inX.toList.getD axis.toNat 0) groups)) := by
  simp [MaxOutOp.InferShape, ha0, ha4, not_le.mpr hg]

theorem C2_truncating_division_witness :
    MaxOutOp.InferShape true true ⟨1, 5, 1, 1⟩ 2 1 =
      .ok ((Shape4.toList ⟨1, 5, 1, 1⟩).set (1 : Int).toNat
        (Int.tdiv ((Shape4.toList ⟨1, 5, 1, 1⟩).getD (1 : Int).toNat 0) 2)) :=
  C2_truncating_division ⟨1, 5, 1, 1⟩ 2 1 (by decide) (by decide) (by decide)
    (by decide)

/-- Claim C5: whenever the X input slot and the Grad@X output slot are present,
gradient shape inference sets the shape of Grad@X to the shape of X. -/
theorem C5_grad_shape_copies_input (xDims : List Int) (groups axis : Int) :
    MaxOutOpGrad.InferShape true true xDims groups axis = .ok xDims := rfl

/-- Claim C6: with the slots present, forward shape inference fails with the
groups enforce message exactly when groups is at most 1; for groups > 1
that check passes. -/
theorem C6_groups_check (inX : Shape4) (groups axis : Int) :
    (groups ≤ 1 →
      MaxOutOp.InferShape true true inX groups axis = .err groupsMsg) ∧
    (1 < groups →
      MaxOutOp.InferShape true true inX groups axis ≠ .err groupsMsg) := by
  constructor
  · intro h
    simp [MaxOutOp.InferShape, h]
  · intro h
    by_cases hax : 0 ≤ axis ∧ axis < 4 <;>
      simp [MaxOutOp.InferShape, not_le.mpr h, hax]

theorem C6_groups_check_witness :
    MaxOutOp.InferShape true true ⟨1, 4, 1, 1⟩ 0 1 = .err groupsMsg ∧
    MaxOutOp.InferShape true true ⟨1, 4, 1, 1⟩ 2 1 ≠ .err groupsMsg :=
  ⟨(C6_groups_check ⟨1, 4, 1, 1⟩ 0 1).1 (by decide),
   (C6_groups_check ⟨1, 4, 1, 1⟩ 2 1).2 (by decide)⟩

/-- Claim C7: forward shape inference fails with the corresponding enforce message
when the X input slot or the Out output slot is absent, gradient shape
inference fails likewise for X or Grad@X, and when all required slots are
present the presence checks pass. -/
theorem C7_presence_checks (hasX hasOut : Bool) (inX : Shape4)
    (xDims : List Int) (groups axis : Int) :
    (hasX = false →
      MaxOutOp.InferShape hasX hasOut inX groups axis = .err xNullMsg) ∧
    (hasX = true → hasOut = false →
      MaxOutOp.InferShape hasX hasOut inX groups axis = .err outNullMsg) ∧
    (hasX = true → hasOut = true →
      MaxOutOp.InferShape hasX hasOut inX groups axis ≠ .err xNullMsg ∧
      MaxOutOp.InferShape hasX hasOut inX groups axis ≠ .err outNullMsg) ∧
    (hasX = false →
      MaxOutOpGrad.InferShape hasX hasOut xDims groups axis
        = .err gradXNullMsg) ∧
    (hasX = true → hasOut = false →
      MaxOutOpGrad.InferShape hasX hasOut xDims groups axis
        = .err gradOutNullMsg) ∧
    (hasX = true → hasOut = true →
      MaxOutOpGrad.InferShape hasX hasOut xDims groups axis = .ok xDims) := by
  refine ⟨?_, ?_, ?_, ?_, ?_, ?_⟩
  · intro h; subst h; simp [MaxOutOp.InferShape]
  · intro h1 h2; subst h1; subst h2; simp [MaxOutOp.InferShape]
  · intro h1 h2; subst h1; subst h2
    constructor
    · by_cases hg : groups ≤ 1
      · simp [MaxOutOp.InferShape, hg, xNullMsg, groupsMsg]
      · by_cases hax : 0 ≤ axis ∧ axis < 4 <;>
          simp [MaxOutOp.InferShape, hg, hax]
    · by_cases hg : groups ≤ 1
      · simp [MaxOutOp.InferShape, hg, outNullMsg, groupsMsg]
      · by_cases hax : 0 ≤ axis ∧ axis < 4 <;>
          simp [MaxOutOp.InferShape, hg, hax]
  · intro h; subst h; simp [MaxOutOpGrad.InferShape]
  · intro h1 h2; subst h1; subst h2; simp [MaxOutOpGrad.InferShape]
  · intro h1 h2; subst h1; subst h2; rfl

theorem C7_presence_checks_witness :
    MaxOutOp.InferShape false true ⟨1, 4, 1, 1⟩ 2 1 = .err xNullMsg ∧
    MaxOutOp.InferShape true false ⟨1, 4, 1, 1⟩ 2 1 = .err outNullMsg ∧
    MaxOutOpGrad.InferShape true true [1, 4, 1, 1] 2 1 = .ok [1, 4, 1, 1] :=
  ⟨(C7_presence_checks false true ⟨1, 4, 1, 1⟩ [1, 4, 1, 1] 2 1).1 rfl,
   (C7_presence_checks true false ⟨1, 4, 1, 1⟩ [1, 4, 1, 1] 2 1).2.1 rfl rfl,
   (C7_presence_checks true true ⟨1, 4, 1, 1⟩ [1, 4, 1, 1] 2 1).2.2.2.2.2
     rfl rfl⟩

/-- Claim C9: forward shape inference performs no validation of axis: with the
slots present and groups > 1, the result is the undefined out-of-range
vector write exactly when axis lies outside 0..3; in particular axis = -1,
which the attribute documentation permits for NHWC data, is out of range. -/
theorem C9_axis_unchecked (inX : Shape4) (groups axis : Int) :
    MaxOutOp.InferShape true true inX groups axis = .ub ↔
      1 < groups ∧ (axis < 0 ∨ 3 < axis) := by
  unfold MaxOutOp.InferShape
  by_cases hg : groups ≤ 1
  · simp only [hg]
    constructor
    · intro h; simp at h
    · intro h; omega
  · by_cases hax : 0 ≤ axis ∧ axis < 4
    · simp only [hg, hax]
      constructor
      · intro h; simp at h
      · intro h; omega
    · simp only [hg, hax]
      constructor
      · intro _; omega
      · intro _; simp

theorem C9_axis_unchecked_witness :
    MaxOutOp.InferShape true true ⟨1, 4, 1, 1⟩ 2 (-1) = .ub :=
  (C9_axis_unchecked ⟨1, 4, 1, 1⟩ 2 (-1)).mpr (by decide)

/-- Claim C10: gradient shape inference does not depend on the groups or axis
attributes and imposes no rank or divisibility constraint: for any shape of
X it copies that shape to Grad@X when both slots are present, and fails
exactly when a slot is absent. -/
theorem C10_grad_ignores_attrs (hasX hasGradX : Bool) (xDims : List Int)
    (g1 a1 g2 a2 : Int) :
    MaxOutOpGrad.InferShape hasX hasGradX xDims g1 a1 =
      MaxOutOpGrad.InferShape hasX hasGradX xDims g2 a2 ∧
    (hasX = true → hasGradX = true →
      MaxOutOpGrad.InferShape hasX hasGradX xDims g1 a1 = .ok xDims) ∧
    (hasX = false ∨ hasGradX = false →
      ∃ m, MaxOutOpGrad.InferShape hasX hasGradX xDims g1 a1 = .err m) := by
  refine ⟨rfl, ?_, ?_⟩
  · intro h1 h2; subst h1; subst h2; rfl
  · intro h
    cases hasX with
    | false => exact ⟨gradXNullMsg, rfl⟩
    | true =>
      cases hasGradX with
      | false => exact ⟨gradOutNullMsg, rfl⟩
      | true => simp at h

/-- Claim C3 counterexample: on the flattened input [1, 3, 2, 1/2] with shape
(1, 4, 1, 1), groups = 2 and axis = 1, the forward value computation does
not produce [2, 3]: the stride here is s = 1, so the documented formula
groups adjacent channel pairs, not strided ones. -/
theorem C3_scenario_cex :
    maxoutForward [1, 3, 2, 1/2] 4 2 ≠ [2, 3] := by
  have h : (1/2 : ℚ) = mkRat 1 2 := by norm_num
  rw [h]; decide

/-- Claim C3 amended: on input shape (1, 4, 1, 1) with flattened values
[1, 3, 2, 1/2], groups = 2 and axis = 1, shape inference produces
(1, 2, 1, 1) and the forward value computation produces [3, 2]: the first
output element is max(1, 3) over input channels 0 and 1, the second is
max(2, 1/2) over input channels 2 and 3, per the documented stride
formula with s = 1. -/
theorem C3_scenario_values :
    MaxOutOp.InferShape true true ⟨1, 4, 1, 1⟩ 2 1 = .ok [1, 2, 1, 1] ∧
    maxoutForward [1, 3, 2, 1/2] 4 2 = [max 1 3, max 2 (1/2)] := by
  constructor
  · decide
  · have h : (1/2 : ℚ) = mkRat 1 2 := by norm_num
    have h13 : max (1 : ℚ) 3 = 3 := max_eq_right (by norm_num)
    have h22 : max (2 : ℚ) (1/2) = 2 := max_eq_left (by norm_num)
    rw [h13, h22, h]; decide

/-- Claim C4: for a valid input, the output element at flattened index s*i + j
equals the maximum over exactly the groups input elements at flattened
indices g*s*i + s*k + j for 0 <= k < groups: it bounds every one of them
from above and is attained by one of them. -/
theorem C4_output_is_max_of_group (x : List ℚ) (nc g s i j : Nat)
    (hg : 0 < g) (hs : s = x.length / nc) (hs0 : 0 < s)
    (hi : i < nc / g) (hj : j < s) :
    (∀ k, k < g → x.getD (g * s * i + s * k + j) 0 ≤
      (maxoutForward x nc g).getD (s * i + j) 0) ∧
    (∃ k, k < g ∧ (maxoutForward x nc g).getD (s * i + j) 0 =
      x.getD (g * s * i + s * k + j) 0) := by
  rw [maxoutForward_getD x nc g s i j hs hs0 hi hj]
  exact ⟨fun k hk => le_maxOverGroups x g s i j k hk,
    maxOverGroups_attained x g s i j hg⟩

theorem C4_output_is_max_of_group_witness :
    (∀ k, k < 2 → ([1, 3, 2, mkRat 1 2] : List ℚ).getD (2 * 1 * 1 + 1 * k + 0) 0 ≤
      (maxoutForward [1, 3, 2, mkRat 1 2] 4 2).getD (1 * 1 + 0) 0) ∧
    (∃ k, k < 2 ∧ (maxoutForward [1, 3, 2, mkRat 1 2] 4 2).getD (1 * 1 + 0) 0 =
      ([1, 3, 2, mkRat 1 2] : List ℚ).getD (2 * 1 * 1 + 1 * k + 0) 0) :=
  C4_output_is_max_of_group [1, 3, 2, mkRat 1 2] 4 2 1 1 0
    (by decide) (by decide) (by decide) (by decide) (by decide)

/-- Claim C8 counterexample: on input [0, 1/2] with two channels and groups = 2,
increasing the first candidate (value 0) by epsilon = 1 moves the output
element from 1/2 to 1, a change of 1/2: neither exactly epsilon nor zero,
because the increased element becomes the maximum from below. -/
theorem C8_exact_epsilon_cex :
    ¬ ((maxoutForward (([0, mkRat 1 2] : List ℚ).set 0
          (([0, mkRat 1 2] : List ℚ).getD 0 0 + 1)) 2 2).getD 0 0 =
        (maxoutForward [0, mkRat 1 2] 2 2).getD 0 0 + 1 ∨
       (maxoutForward (([0, mkRat 1 2] : List ℚ).set 0
          (([0, mkRat 1 2] : List ℚ).getD 0 0 + 1)) 2 2).getD 0 0 =
        (maxoutForward [0, mkRat 1 2] 2 2).getD 0 0) := by
  have h0 : (([0, mkRat 1 2] : List ℚ).getD 0 0) + 1 = 1 := by norm_num
  have hset : (([0, mkRat 1 2] : List ℚ).set 0
      (([0, mkRat 1 2] : List ℚ).getD 0 0 + 1)) = [1, mkRat 1 2] := by
    rw [h0]; rfl
  have hv1 : (maxoutForward [1, mkRat 1 2] 2 2).getD 0 0 = 1 := by decide
  have hv0 : (maxoutForward [0, mkRat 1 2] 2 2).getD 0 0 = mkRat 1 2 := by
    decide
  have hmk : (mkRat 1 2 : ℚ) = 1/2 := by norm_num
  rw [hset, hv1, hv0, hmk]
  norm_num

/-- Claim C8 amended: increasing a single one of the groups candidate input
elements of an output element by epsilon > 0 changes that output element by
some amount between 0 and epsilon inclusive; the change is exactly epsilon
whenever the increased element was already the maximum, and exactly 0
whenever its increased value still does not exceed the old maximum. -/
theorem C8_monotone_bounded (x : List ℚ) (nc g s i j k : Nat) (ε : ℚ)
    (hg : 0 < g) (hs : s = x.length / nc) (hs0 : 0 < s)
    (hi : i < nc / g) (hj : j < s) (hk : k < g)
    (hidx : g * s * i + s * k + j < x.length) (hε : 0 < ε) :
    (maxoutForward x nc g).getD (s * i + j) 0 ≤
      (maxoutForward (x.set (g * s * i + s * k + j)
        (x.getD (g * s * i + s * k + j) 0 + ε)) nc g).getD (s * i + j) 0 ∧
    (maxoutForward (x.set (g * s * i + s * k + j)
        (x.getD (g * s * i + s * k + j) 0 + ε)) nc g).getD (s * i + j) 0 ≤
      (maxoutForward x nc g).getD (s * i + j) 0 + ε ∧
    (x.getD (g * s * i + s * k + j) 0 =
        (maxoutForward x nc g).getD (s * i + j) 0 →
      (maxoutForward (x.set (g * s * i + s * k + j)
        (x.getD (g * s * i + s * k + j) 0 + ε)) nc g).getD (s * i + j) 0 =
        (maxoutForward x nc g).getD (s * i + j) 0 + ε) ∧
    (x.getD (g * s * i + s * k + j) 0 + ε ≤
        (maxoutForward x nc g).getD (s * i + j) 0 →
      (maxoutForward (x.set (g * s * i + s * k + j)
        (x.getD (g * s * i + s * k + j) 0 + ε)) nc g).getD (s * i + j) 0 =
        (maxoutForward x nc g).getD (s * i + j) 0) := by
  have hlenset : (x.set (g * s * i + s * k + j)
      (x.getD (g * s * i + s * k + j) 0 + ε)).length = x.length := by
    simp
  have hs' : s = (x.set (g * s * i + s * k + j)
      (x.getD (g * s * i + s * k + j) 0 + ε)).length / nc := by
    rw [hlenset]; exact hs
  rw [maxoutForward_getD x nc g s i j hs hs0 hi hj,
    maxoutForward_getD _ nc g s i j hs' hs0 hi hj]
  have hdiff : ∀ k', k' ≠ k →
      g * s * i + s * k' + j ≠ g * s * i + s * k + j := by
    intro k' hne heq
    apply hne
    have h1 : g * s * i + s * k' = g * s * i + s * k :=
      Nat.add_right_cancel heq
    have h2 : s * k' = s * k := Nat.add_left_cancel h1
    exact Nat.eq_of_mul_eq_mul_left hs0 h2
  have hgetne : ∀ k', k' ≠ k →
      (x.set (g * s * i + s * k + j)
        (x.getD (g * s * i + s * k + j) 0 + ε)).getD
          (g * s * i + s * k' + j) 0 =
        x.getD (g * s * i + s * k' + j) 0 := by
    intro k' hne
    simp [List.getD_eq_getElem?_getD,
      List.getElem?_set_ne (Ne.symm (hdiff k' hne))]
  have hgeteq : (x.set (g * s * i + s * k + j)
      (x.getD (g * s * i + s * k + j) 0 + ε)).getD
        (g * s * i + s * k + j) 0 =
      x.getD (g * s * i + s * k + j) 0 + ε := by
    simp [List.getD_eq_getElem?_getD, List.getElem?_set_self, hidx]
  have hmono : maxOverGroups x g s i j ≤
      maxOverGroups (x.set (g * s * i + s * k + j)
        (x.getD (g * s * i + s * k + j) 0 + ε)) g s i j := by
    apply maxOverGroups_mono _ _ _ _ _ _ _ hg
    intro k' hk'
    by_cases hkk : k' = k
    · rw [hkk, hgeteq]
      exact le_add_of_nonneg_right hε.le
    · rw [hgetne k' hkk]
  have hub : maxOverGroups (x.set (g * s * i + s * k + j)
      (x.getD (g * s * i + s * k + j) 0 + ε)) g s i j ≤
      maxOverGroups x g s i j + ε := by
    apply maxOverGroups_le _ _ _ _ _ _ _ hg
    intro k' hk'
    by_cases hkk : k' = k
    · rw [hkk, hgeteq]
      exact add_le_add_right (le_maxOverGroups x g s i j k hk) ε
    · rw [hgetne k' hkk]
      exact le_trans (le_maxOverGroups x g s i j k' hk')
        (le_add_of_nonneg_right hε.le)
  refine ⟨hmono, hub, ?_, ?_⟩
  · intro hwas
    apply le_antisymm hub
    have h1 := le_maxOverGroups (x.set (g * s * i + s * k + j)
      (x.getD (g * s * i + s * k + j) 0 + ε)) g s i j k hk
    rw [hgeteq] at h1
    rw [← hwas]
    exact h1
  · intro hstill
    apply le_antisymm _ hmono
    apply maxOverGroups_le _ _ _ _ _ _ _ hg
    intro k' hk'
    by_cases hkk : k' = k
    · rw [hkk, hgeteq]
      exact hstill
    · rw [hgetne k' hkk]
      exact le_maxOverGroups x g s i j k' hk'

theorem C8_monotone_bounded_witness :
    (maxoutForward [0, mkRat 1 2] 2 2).getD (1 * 0 + 0) 0 ≤
      (maxoutForward (([0, mkRat 1 2] : List ℚ).set (2 * 1 * 0 + 1 * 0 + 0)
        (([0, mkRat 1 2] : List ℚ).getD (2 * 1 * 0 + 1 * 0 + 0) 0 + 1)) 2 2).getD
          (1 * 0 + 0) 0 ∧
    (maxoutForward (([0, mkRat 1 2] : List ℚ).set (2 * 1 * 0 + 1 * 0 + 0)
        (([0, mkRat 1 2] : List ℚ).getD (2 * 1 * 0 + 1 * 0 + 0) 0 + 1)) 2 2).getD
          (1 * 0 + 0) 0 ≤
      (maxoutForward [0, mkRat 1 2] 2 2).getD (1 * 0 + 0) 0 + 1 ∧
    (([0, mkRat 1 2] : List ℚ).getD (2 * 1 * 0 + 1 * 0 + 0) 0 =
        (maxoutForward [0, mkRat 1 2] 2 2).getD (1 * 0 + 0) 0 →
      (maxoutForward (([0, mkRat 1 2] : List ℚ).set (2 * 1 * 0 + 1 * 0 + 0)
        (([0, mkRat 1 2] : List ℚ).getD (2 * 1 * 0 + 1 * 0 + 0) 0 + 1)) 2 2).getD
          (1 * 0 + 0) 0 =
        (maxoutForward [0, mkRat 1 2] 2 2).getD (1 * 0 + 0) 0 + 1) ∧
    (([0, mkRat 1 2] : List ℚ).getD (2 * 1 * 0 + 1 * 0 + 0) 0 + 1 ≤
        (maxoutForward [0, mkRat 1 2] 2 2).getD (1 * 0 + 0) 0 →
      (maxoutForward (([0, mkRat 1 2] : List ℚ).set (2 * 1 * 0 + 1 * 0 + 0)
        (([0, mkRat 1 2] : List ℚ).getD (2 * 1 * 0 + 1 * 0 + 0) 0 + 1)) 2 2).getD
          (1 * 0 + 0) 0 =
        (maxoutForward [0, mkRat 1 2] 2 2).getD (1 * 0 + 0) 0) :=
  C8_monotone_bounded [0, mkRat 1 2] 2 2 1 0 0 0 1
    (by decide) (by decide) (by decide) (by decide) (by decide) (by decide)
    (by decide) (by decide)

theorem C10_grad_ignores_attrs_witness :
    MaxOutOpGrad.InferShape true true [7, 3, 2] 5 9 =
      MaxOutOpGrad.InferShape true true [7, 3, 2] (-4) 0 ∧
    MaxOutOpGrad.InferShape true true [7, 3, 2] 5 9 = .ok [7, 3, 2] ∧
    ∃ m, MaxOutOpGrad.InferShape false true [7, 3, 2] 5 9 = .err m :=
  ⟨(C10_grad_ignores_attrs true true [7, 3, 2] 5 9 (-4) 0).1,
   (C10_grad_ignores_attrs true true [7, 3, 2] 5 9 (-4) 0).2.1 rfl rfl,
   (C10_grad_ignores_attrs false true [7, 3, 2] 5 9 (-4) 0).2.2 (Or.inl rfl)⟩

end Maxout
